import Mathlib

/-!
Card terminal on LPC1768 / FreeRTOS / SIM900: a model of `app/main.c`

The tasks of `app/main.c` are embedded as pure functions.  A task reads the
outcomes of the calls it makes to its collaborators (modem driver, queue,
UART) from an environment record and returns the new contents of the data it
owns together with the ordered trace of the calls it made.

Bytes are natural numbers; a C string is the list of its bytes before the
terminating NUL; a raw buffer is the list of all its bytes.
-/

namespace Terminal

/-! ## Bytes, strings and the C library -/

/-- Bytes of a C string literal, without the terminating NUL. -/
def cstr (s : String) : List Nat := s.toList.map Char.toNat

/-- ASCII `tolower` on one byte. -/
def tolower (c : Nat) : Nat := if 65 ≤ c ∧ c ≤ 90 then c + 32 else c

/-- Modelled from the spec: `strtolower` is declared in `misc.h`, which is not
part of the sources; the specification says the text is normalised to
lowercase, so every byte is mapped through ASCII `tolower`, in place. -/
def strtolower (s : List Nat) : List Nat := s.map tolower

/-- C `strstr(haystack, needle)`: offset of the first occurrence of `needle`
in `haystack`, or `none` for the NULL result. -/
def strstr : List Nat → List Nat → Option Nat
  | [], n => if n.isPrefixOf [] then some 0 else none
  | c :: h, n => if n.isPrefixOf (c :: h) then some 0 else (strstr h n).map (· + 1)

/-- C `strlen` on raw memory: number of bytes before the first NUL. -/
def strlen (mem : List Nat) : Nat := (mem.takeWhile (· ≠ 0)).length

/-- The C string that starts at the beginning of raw memory `mem`. -/
def stringAt (mem : List Nat) : List Nat := mem.takeWhile (· ≠ 0)

/-- Store `src` into buffer `buf` from offset `off` on; `none` when the store
would run past the end of the buffer. -/
def store (buf : List Nat) (off : Nat) (src : List Nat) : Option (List Nat) :=
  if off + src.length ≤ buf.length then
    some (buf.take off ++ src ++ buf.drop (off + src.length))
  else none

/-- C `strcpy(dst, src)` into a raw buffer: the string at `src` and its
terminating NUL are stored at the start of `dst`. -/
def strcpy (dst : List Nat) (src : List Nat) : Option (List Nat) :=
  store dst 0 (stringAt src ++ [0])

/-- C `memcpy(dst + off, src, n)` into a raw buffer; `none` when `src` has
fewer than `n` bytes or the store leaves `dst`. -/
def memcpy (dst : List Nat) (off : Nat) (src : List Nat) (n : Nat) : Option (List Nat) :=
  if n ≤ src.length then store dst off (src.take n) else none

/-! ## Calls made by the tasks -/

/-- Operations of the modem driver (`gsm.h`) called from `main.c`. -/
inductive Cmd
  | gsm_ping_modem
  | gsm_get_operator_name
  | gsm_get_accesspoint
  | gsm_set_accesspoint
  | gsm_get_tcpstatus
  | gsm_start_gprs
  | gsm_get_ip_address
  | gsm_tcp_disconnect
  | gsm_http_get
  | http_read_data
  | modem_flush_rx
  deriving DecidableEq

/-- One observable call of a task. -/
inductive Ev
  /-- a modem driver call, with its string arguments (none for a call that takes
  `&modem` or nothing) -/
  | modem (c : Cmd) (args : List (List Nat))
  /-- a call `debug_out(s)` -/
  | debug_out (s : List Nat)
  /-- a call `debug_putc(c)` -/
  | debug_putc (c : Nat)
  /-- a call `xQueueSend(httpQueue, item, 10)`, with the bytes of the item -/
  | xQueueSend (item : List Nat)
  /-- another kernel or driver call, by name -/
  | call (fn : List Nat)
  deriving DecidableEq

/-- The modem driver calls of a trace, in order. -/
def cmdsOf : List Ev → List Cmd
  | [] => []
  | Ev.modem c _ :: t => c :: cmdsOf t
  | _ :: t => cmdsOf t

/-- The texts written with `debug_out` in a trace, in order. -/
def debugOf : List Ev → List (List Nat)
  | [] => []
  | Ev.debug_out s :: t => s :: debugOf t
  | _ :: t => debugOf t

/-- Code between `#ifdef __DEBUG_MESSAGES__` and `#endif`: the `debug_out`
calls are made when the build defines the symbol (`dbg`), and are absent
otherwise.  The symbol comes from `config.h`, which is not part of the
sources, so it is a parameter of every task. -/
def ifdefDebug (dbg : Bool) (msgs : List (List Nat)) : List Ev :=
  if dbg then msgs.map Ev.debug_out else []

/-- The shared `modem` record (declared in `gsm.h`); each field holds the
current C string of the corresponding character buffer. -/
structure Modem where
  operator_name : List Nat
  setapn : List Nat
  getapn : List Nat
  tcpstatus : List Nat
  ip_addr : List Nat
  httpdata : List Nat
  deriving DecidableEq

/-! ## `systemBoot` -/

/-- The constant `APN_OPR_LIST_LEN`: size of the operator and access point lists. -/
def APN_OPR_LIST_LEN : Nat := 8

/-- List of operators. -/
def oprList : List (List Nat) :=
  [cstr "airtel", cstr "cellone", cstr "idea", cstr "aircel",
   cstr "tata docomo", cstr "t24", cstr "reliance", cstr "vodafone"]

/-- List of access points for the operators. -/
def apnList : List (List Nat) :=
  [cstr "airtelgprs.com", cstr "bsnlnet", cstr "internet", cstr "aircelgprs.pr",
   cstr "TATA.DOCOMO.INTERNET", cstr "TATA.DOCOMO.INTERNET", cstr "rcomnet", cstr "www"]

/-- The loop `for(i = 0; i < APN_OPR_LIST_LEN; i++)` of `systemBoot` that
finds the access point: `k` iterations remain, the index is `i`, and the
result is the content of `modem.setapn` after the loop.  The first operator
found in `operator_name` has its access point copied and ends the loop; when
the loop runs out, `modem.setapn` is what it was. -/
def findApn (operator_name setapn : List Nat) : Nat → Nat → List Nat
  | 0, _ => setapn
  | k + 1, i =>
    if (strstr operator_name (oprList.getD i [])).isSome then apnList.getD i []
    else findApn operator_name setapn k (i + 1)

/-- Outcomes of the modem driver calls made by `systemBoot`. -/
structure BootEnv where
  /-- result of the `i`-th `gsm_ping_modem()` -/
  ping : Nat → Bool
  /-- content of `modem.operator_name` after `gsm_get_operator_name(&modem)` -/
  operator_name : List Nat
  /-- content of `modem.getapn` after the first `gsm_get_accesspoint(&modem)` -/
  getapn : List Nat
  /-- result of `gsm_set_accesspoint(&modem)` -/
  setOk : Bool
  /-- content of `modem.getapn` after the second `gsm_get_accesspoint(&modem)` -/
  getapnAgain : List Nat

/-- The eight pings of `systemBoot`; a successful ping is logged. -/
def pingLoop (env : BootEnv) : List Ev :=
  (List.range 8).flatMap fun i =>
    Ev.modem Cmd.gsm_ping_modem [] ::
      (if env.ping i then
        [Ev.debug_out (cstr "ping: "), Ev.debug_putc (i + 48), Ev.debug_out (cstr "\r\n")]
      else [])

/-- The part of `systemBoot` that compares the access point read from the
modem with the one found for the operator (`/* Check with predefined APN */`).
Returns the record and the calls made. -/
def checkApn (dbg : Bool) (env : BootEnv) (modem : Modem) : Modem × List Ev :=
  if (strstr modem.getapn modem.setapn).isNone then
    let t1 := ifdefDebug dbg
      [cstr "access point read from modem is different from actual\r\n",
       cstr "So setting actual accesspoint name\r\n"]
    let t2 := t1 ++ [Ev.modem Cmd.gsm_set_accesspoint []]
    if env.setOk then
      let t3 := t2 ++ ifdefDebug dbg
        [cstr "set accesspoint name success\r\n", cstr "reading apn again from modem\r\n"]
      let t4 := t3 ++ [Ev.modem Cmd.gsm_get_accesspoint []]
      let modem1 := { modem with getapn := env.getapnAgain }
      let t5 := t4 ++ ifdefDebug dbg
        [cstr "read apn completed\r\n", cstr "apn name read: ", modem1.getapn,
         cstr ", actual: ", modem1.setapn, cstr "\r\n"]
      (modem1, t5)
    else (modem, t2)
  else
    (modem, ifdefDebug dbg [cstr "modem has valid apn no need to set\r\n"])

/-- The boot task, one pass of its `for(;;)` body (the task deletes itself at
the end of the pass).  Returns the `modem` record and the calls made. -/
def systemBoot (dbg : Bool) (env : BootEnv) (modem : Modem) : Modem × List Ev :=
  let t0 := List.replicate 4 (Ev.call (cstr "xSemaphoreCreateMutex"))
  let t1 := t0 ++ pingLoop env
  let t2 := t1 ++ [Ev.modem Cmd.gsm_get_operator_name []]
  let modem1 := { modem with operator_name := env.operator_name }
  let modem2 := { modem1 with operator_name := strtolower modem1.operator_name }
  let modem3 := { modem2 with
    setapn := findApn modem2.operator_name modem2.setapn APN_OPR_LIST_LEN 0 }
  let t3 := t2 ++ ifdefDebug dbg
    [cstr "apn search completed\r\n", cstr "access point name for operator ",
     modem3.operator_name, cstr " is ", modem3.setapn, cstr "\r\n",
     cstr "reading apn from modem\r\n"]
  let t4 := t3 ++ [Ev.modem Cmd.gsm_get_accesspoint []]
  let modem4 := { modem3 with getapn := env.getapn }
  let t5 := t4 ++ ifdefDebug dbg
    [cstr "read apn completed\r\n", cstr "access point read from modem: ",
     modem4.getapn, cstr "\r\n"]
  let r := checkApn dbg env modem4
  let t6 := t5 ++ r.2 ++ List.replicate 3 (Ev.call (cstr "xQueueCreate"))
  let t7 := t6 ++ ifdefDebug dbg
    [cstr "queues are created, now creating the\r\ntasks after that this task will delete\r\n"]
  let t8 := t7 ++ List.replicate 4 (Ev.call (cstr "xTaskCreate")) ++
    [Ev.call (cstr "vTaskDelete")]
  (r.1, t8)

/-! ## `connectGPRS` -/

/-- Outcomes of the modem driver calls made in one pass of `connectGPRS`. -/
structure GprsEnv where
  /-- content of `modem.tcpstatus` after `gsm_get_tcpstatus(&modem)` -/
  tcpstatus : List Nat
  /-- result of `gsm_start_gprs()` -/
  startOk : Bool
  /-- result of `gsm_tcp_disconnect()` -/
  disconnectOk : Bool
  /-- result of `gsm_get_ip_address(&modem)` -/
  ipOk : Bool
  /-- content of `modem.ip_addr` after `gsm_get_ip_address(&modem)` -/
  ip_addr : List Nat

/-- The block `if(gsm_get_ip_address(&modem)) { ... }` (read ip address from
modem), which `connectGPRS` repeats in six of its branches. -/
def readIpAddress (dbg : Bool) (env : GprsEnv) (modem : Modem) : Modem × List Ev :=
  let modem1 := { modem with ip_addr := env.ip_addr }
  (modem1, Ev.modem Cmd.gsm_get_ip_address [] ::
    (if env.ipOk then ifdefDebug dbg [cstr "Read IP address success\r\n", modem1.ip_addr]
     else []))

/-- One pass of the `for(;;)` body of `connectGPRS`: read the TCP status,
lower-case it, act on the first test of the `if`/`else if` chain that holds,
then suspend.  Returns the `modem` record and the calls made. -/
def connectGPRS_pass (dbg : Bool) (env : GprsEnv) (modem : Modem) : Modem × List Ev :=
  let t0 := ifdefDebug dbg [cstr "reading tcp status from modem\r\n"] ++
    [Ev.modem Cmd.gsm_get_tcpstatus []]
  let modem1 := { modem with tcpstatus := env.tcpstatus }
  let modem2 := { modem1 with tcpstatus := strtolower modem1.tcpstatus }
  let t1 := t0 ++ ifdefDebug dbg
    [cstr "reading tcp status completed\r\n", cstr "status: ", modem2.tcpstatus, cstr "\r\n"]
  let r : Modem × List Ev :=
    if (strstr modem2.tcpstatus (cstr "ip start")).isSome ||
        (strstr modem2.tcpstatus (cstr "ip initial")).isSome then
      let t := ifdefDebug dbg [cstr "ip start state bringing wireless up\r\n"] ++
        [Ev.modem Cmd.gsm_start_gprs []]
      if env.startOk then
        let r := readIpAddress dbg env modem2
        (r.1, t ++ ifdefDebug dbg [cstr "GPRS start success\r\n", cstr "reading ip address\r\n"]
          ++ r.2)
      else (modem2, t)
    else if (strstr modem2.tcpstatus (cstr "ip config")).isSome then
      (modem2, ifdefDebug dbg [cstr "ip configure\r\n"])
    else if (strstr modem2.tcpstatus (cstr "ip gprsact")).isSome ||
        (strstr modem2.tcpstatus (cstr "ip status")).isSome then
      let r := readIpAddress dbg env modem2
      (r.1, ifdefDebug dbg [cstr "gprs act\r\n", cstr "reading ip address\r\n"] ++ r.2)
    else if (strstr modem2.tcpstatus (cstr "tcp connecting")).isSome then
      (modem2, ifdefDebug dbg [cstr "connecting\r\n"])
    else if (strstr modem2.tcpstatus (cstr "connect ok")).isSome then
      let t := ifdefDebug dbg [cstr "connect ok\r\n"] ++ [Ev.modem Cmd.gsm_tcp_disconnect []]
      if env.disconnectOk then
        let r := readIpAddress dbg env modem2
        (r.1, t ++ ifdefDebug dbg [cstr "disconnect OK\r\n"] ++ r.2)
      else (modem2, t)
    else if (strstr modem2.tcpstatus (cstr "tcp closing")).isSome then
      let r := readIpAddress dbg env modem2
      (r.1, ifdefDebug dbg [cstr "tcp closing\r\n"] ++ r.2)
    else if (strstr modem2.tcpstatus (cstr "tcp closed")).isSome then
      let r := readIpAddress dbg env modem2
      (r.1, ifdefDebug dbg [cstr "tcp closed\r\n"] ++ r.2)
    else if (strstr modem2.tcpstatus (cstr "pdp deact")).isSome then
      (modem2, ifdefDebug dbg [cstr "pdp deactivated shutdown is required\r\n"])
    else
      readIpAddress dbg env modem2
  (r.1, t1 ++ r.2 ++ ifdefDebug dbg [cstr "gprs task completed, suspending now\r\n"] ++
    [Ev.call (cstr "vTaskSuspend")])

/-- The task `connectGPRS`: one pass for each time the task runs, the
outcomes of the passes being given in order. -/
def connectGPRS (dbg : Bool) : List GprsEnv → Modem → Modem × List Ev
  | [], modem => (modem, [])
  | env :: envs, modem =>
    let r := connectGPRS_pass dbg env modem
    let r1 := connectGPRS dbg envs r.1
    (r1.1, r.2 ++ r1.2)

/-- The modem calls of a trace other than the status polls. -/
def cmdsAfterPoll (t : List Ev) : List Cmd :=
  (cmdsOf t).filter (fun c => decide (c ≠ Cmd.gsm_get_tcpstatus))

/-- The deactivated-session report of `connectGPRS`. -/
def deactivatedReport : List Nat := cstr "pdp deactivated shutdown is required\r\n"

/-! ### The status table of the specification -/

/-- The classes of status text of the specification's table. -/
inductive StatusClass
  | sessionStart
  | sessionConfiguring
  | sessionActive
  | connectionNegotiating
  | connectionEstablished
  | connectionClosing
  | connectionClosed
  | sessionDeactivated
  deriving DecidableEq

/-- The classes in the order in which the status text is tested. -/
def classOrder : List StatusClass :=
  [StatusClass.sessionStart, StatusClass.sessionConfiguring, StatusClass.sessionActive,
   StatusClass.connectionNegotiating, StatusClass.connectionEstablished,
   StatusClass.connectionClosing, StatusClass.connectionClosed,
   StatusClass.sessionDeactivated]

/-- The texts that put a status into a class. -/
def StatusClass.patterns : StatusClass → List (List Nat)
  | sessionStart => [cstr "ip start", cstr "ip initial"]
  | sessionConfiguring => [cstr "ip config"]
  | sessionActive => [cstr "ip gprsact", cstr "ip status"]
  | connectionNegotiating => [cstr "tcp connecting"]
  | connectionEstablished => [cstr "connect ok"]
  | connectionClosing => [cstr "tcp closing"]
  | connectionClosed => [cstr "tcp closed"]
  | sessionDeactivated => [cstr "pdp deact"]

/-- A status text belongs to a class when its lowercase form contains one of
the patterns of the class. -/
def StatusClass.hasText (c : StatusClass) (text : List Nat) : Bool :=
  c.patterns.any fun p => decide (p <:+: strtolower text)

/-- The action of a class in the specification's table, as the modem calls
made when every call succeeds. -/
def StatusClass.action : StatusClass → List Cmd
  | sessionStart => [Cmd.gsm_start_gprs, Cmd.gsm_get_ip_address]
  | sessionConfiguring => []
  | sessionActive => [Cmd.gsm_get_ip_address]
  | connectionNegotiating => []
  | connectionEstablished => [Cmd.gsm_tcp_disconnect, Cmd.gsm_get_ip_address]
  | connectionClosing => [Cmd.gsm_get_ip_address]
  | connectionClosed => [Cmd.gsm_get_ip_address]
  | sessionDeactivated => []

/-- The action of a class with the outcomes of the calls taken into account:
the address is read after `gsm_start_gprs` or `gsm_tcp_disconnect` only when
that call succeeded. -/
def StatusClass.actionWith (env : GprsEnv) : StatusClass → List Cmd
  | sessionStart =>
    Cmd.gsm_start_gprs :: (if env.startOk then [Cmd.gsm_get_ip_address] else [])
  | connectionEstablished =>
    Cmd.gsm_tcp_disconnect :: (if env.disconnectOk then [Cmd.gsm_get_ip_address] else [])
  | c => c.action

/-- The classes a status text belongs to. -/
def classesOf (text : List Nat) : List StatusClass :=
  classOrder.filter fun c => c.hasText text

/-- The action the specification's table gives for a status text that belongs
to at most one class: the action of that class, and the address read for a
text of no class.  A text of several classes is outside this reading of the
table; no action is listed for it. -/
def tableAction (text : List Nat) : List Cmd :=
  match classesOf text with
  | [] => [Cmd.gsm_get_ip_address]
  | [c] => c.action
  | _ :: _ :: _ => []

/-! ## `scanCard` -/

/-- The locals of `scanCard` that live across passes: the byte counter `i`
and the buffers `card_no[15]` and `rfid[15]`. -/
structure ScanState where
  i : Nat
  card_no : List Nat
  rfid : List Nat

/-- The bytes received in a sequence of polls of the reader's FIFO, that is,
the bytes `uart0_getc()` returns, in order.  A byte that `uart0_flushrx()`
discards is never returned by `uart0_getc()` and is not part of the polls. -/
def bytesOf (polls : List (Option Nat)) : List Nat := polls.filterMap id

/-- The loop `while(i != 12)` of `scanCard`.  Each turn polls
`uart0_fifo.num_bytes`: the FIFO is empty (`none`), or `uart0_getc()` gives one
byte that is stored at `card_no[i++]` (`some b`).  The result is the counter,
the buffer and the polls left when the loop ends; `none` when the polls run
out with the loop still waiting, or a store leaves the buffer. -/
def readFrame : List (Option Nat) → Nat → List Nat → Option (Nat × List Nat × List (Option Nat))
  | polls, i, card_no =>
    if i ≠ 12 then
      match polls with
      | [] => none
      | none :: ps => readFrame ps i card_no
      | some b :: ps =>
        match store card_no i [b] with
        | none => none
        | some card_no1 => readFrame ps ((i + 1) % 256) card_no1
    else some (i, card_no, polls)

/-- One pass of the `for(;;)` body of `scanCard`: collect a frame, copy six
bytes from `&card_no[4]` into `rfid`, reset the counter, flush the UART and
send the first six bytes of `rfid` (the item size of `httpQueue`).  Returns the
locals, the calls made and the polls left. -/
def scanCard_pass (polls : List (Option Nat)) (s : ScanState) :
    Option (ScanState × List Ev × List (Option Nat)) :=
  match readFrame polls s.i s.card_no with
  | none => none
  | some (_, card_no, rest) =>
    match memcpy s.rfid 0 (card_no.drop 4) 6 with
    | none => none
    | some rfid =>
      some ({ i := 0, card_no := card_no, rfid := rfid },
        [Ev.call (cstr "uart0_flushrx"), Ev.xQueueSend (rfid.take 6)], rest)

/-- The task `scanCard`, for at most `n` passes: the calls made by the passes
that complete on the given polls. -/
def scanCard : Nat → List (Option Nat) → ScanState → List Ev
  | 0, _, _ => []
  | n + 1, polls, s =>
    match scanCard_pass polls s with
    | none => []
    | some (s1, t, rest) => t ++ scanCard n rest s1

/-! ## `httpProc` -/

/-- The data `httpProc` owns or writes: `rfid[10]`, the 32 bytes `path`
points to, and the `modem` record. -/
structure HttpState where
  rfid : List Nat
  path : List Nat
  modem : Modem

/-- Outcomes of the calls made in one pass of `httpProc`. -/
structure HttpEnv where
  /-- outcome of `xQueueReceive(httpQueue, rfid, 10)`: the item received, or a timeout -/
  received : Option (List Nat)
  /-- result of `gsm_http_get(URL, path)` -/
  getOk : Bool
  /-- result of the `xSemaphoreTake(debugSema, 50)` that follows the GET -/
  semaGet : Bool
  /-- content of `modem.httpdata` after `http_read_data(&modem)` -/
  httpdata : List Nat
  /-- result of `gsm_tcp_disconnect()` -/
  disconnectOk : Bool
  /-- result of the `xSemaphoreTake(debugSema, 50)` that follows the disconnect -/
  semaDisconnect : Bool

/-- The block `if(xSemaphoreTake(debugSema, 50) == pdTRUE) { debug_out(msg);
xSemaphoreGive(debugSema); }`. -/
def lockedDebug (taken : Bool) (msg : List Nat) : List Ev :=
  Ev.call (cstr "xSemaphoreTake") ::
    (if taken then [Ev.debug_out msg, Ev.call (cstr "xSemaphoreGive")] else [])

/-- The three statements of `httpProc` that build the request path in the
buffer `path`:
`strcpy(path, BASE); memcpy(&path[strlen(path)], rfid, 6);
path[strlen(BASE) + 6] = NULL;`.  `BASE` (from `config.h`, not part of the
sources) is a parameter. -/
def buildPath (BASE : List Nat) (path rfid : List Nat) : Option (List Nat) :=
  match strcpy path BASE with
  | none => none
  | some path1 =>
    match memcpy path1 (strlen path1) rfid 6 with
    | none => none
    | some path2 => store path2 (strlen BASE + 6) [0]

/-- One pass of the `for(;;)` body of `httpProc`.  `URL` and `BASE` come from
`config.h`; `queueCreated` is the test `httpQueue != 0`.  The `gsm_http_get`
call is recorded with the URL and with the bytes of the buffer `path` points
to.  Returns the data and the calls made; `none` when a store leaves a
buffer. -/
def httpProc_pass (URL BASE : List Nat) (queueCreated : Bool) (env : HttpEnv) (s : HttpState) :
    Option (HttpState × List Ev) :=
  if queueCreated then
    match env.received with
    | some item =>
      match store s.rfid 0 item with
      | none => none
      | some rfid =>
        match buildPath BASE s.path rfid with
        | none => none
        | some path =>
          let t := [Ev.call (cstr "xQueueReceive"), Ev.modem Cmd.gsm_http_get [URL, path]]
          if env.getOk then
            let t1 := t ++ lockedDebug env.semaGet (cstr "HTTP OK\r\n")
            let t2 := t1 ++ [Ev.modem Cmd.http_read_data []]
            let modem1 := { s.modem with httpdata := env.httpdata }
            let t3 := t2 ++ [Ev.debug_out (cstr "DATA\r\n"), Ev.debug_out modem1.httpdata,
              Ev.debug_out (cstr "\r\n")]
            let t4 := t3 ++ [Ev.modem Cmd.gsm_tcp_disconnect []]
            if env.disconnectOk then
              some ({ rfid := rfid, path := path, modem := modem1 },
                t4 ++ lockedDebug env.semaDisconnect (cstr "DISCONNECT OK\r\n"))
            else
              some ({ rfid := rfid, path := path, modem := modem1 },
                t4 ++ lockedDebug env.semaDisconnect (cstr "DISCONNECT OK\r\n"))
          else
            some ({ rfid := rfid, path := path, modem := s.modem },
              t ++ lockedDebug env.semaGet (cstr "HTTP FAIL\r\n"))
    | none =>
      some (s, [Ev.call (cstr "xQueueReceive"), Ev.modem Cmd.modem_flush_rx []])
  else some (s, [])

/-- The task `httpProc`: one pass for each outcome record, in order. -/
def httpProc (URL BASE : List Nat) (queueCreated : Bool) :
    List HttpEnv → HttpState → Option (HttpState × List Ev)
  | [], s => some (s, [])
  | env :: envs, s =>
    match httpProc_pass URL BASE queueCreated env s with
    | none => none
    | some (s1, t) =>
      match httpProc URL BASE queueCreated envs s1 with
      | none => none
      | some (s2, t1) => some (s2, t ++ t1)

/-- The path buffers given to `gsm_http_get` in a trace, in order. -/
def httpGetPaths : List Ev → List (List Nat)
  | [] => []
  | Ev.modem Cmd.gsm_http_get [_, path] :: t => path :: httpGetPaths t
  | _ :: t => httpGetPaths t

/-- The modem calls `httpProc` makes for one pass according to the
specification: a flush when no card event arrived; for a card event one GET,
followed by the response read and one disconnect when the GET succeeded. -/
def exchangeCmds (env : HttpEnv) : List Cmd :=
  match env.received with
  | none => [Cmd.modem_flush_rx]
  | some _ =>
    if env.getOk then [Cmd.gsm_http_get, Cmd.http_read_data, Cmd.gsm_tcp_disconnect]
    else [Cmd.gsm_http_get]

/-! ## Facts about the C library model -/

theorem strstr_cons (c : Nat) (h n : List Nat) :
    strstr (c :: h) n =
      if n.isPrefixOf (c :: h) then some 0 else (strstr h n).map (· + 1) := by
  rw [strstr]

theorem strstr_isSome_iff (h n : List Nat) : (strstr h n).isSome = true ↔ n <:+: h := by
  induction h with
  | nil =>
    cases n <;> simp [strstr, List.isPrefixOf]
  | cons c h ih =>
    rw [List.infix_cons_iff, ← ih, ← List.isPrefixOf_iff_prefix, strstr_cons]
    by_cases hp : n.isPrefixOf (c :: h) = true
    · simp [hp]
    · simp [hp]

theorem strstr_isNone_iff (h n : List Nat) : (strstr h n).isNone = true ↔ ¬ n <:+: h := by
  rw [← strstr_isSome_iff]
  cases strstr h n <;> simp

/-! ## Facts about traces -/

@[simp] theorem cmdsOf_nil : cmdsOf [] = [] := rfl

@[simp] theorem cmdsOf_modem (c : Cmd) (a : List (List Nat)) (t : List Ev) :
    cmdsOf (Ev.modem c a :: t) = c :: cmdsOf t := rfl

@[simp] theorem cmdsOf_debug_out (s : List Nat) (t : List Ev) :
    cmdsOf (Ev.debug_out s :: t) = cmdsOf t := rfl

@[simp] theorem cmdsOf_debug_putc (c : Nat) (t : List Ev) :
    cmdsOf (Ev.debug_putc c :: t) = cmdsOf t := rfl

@[simp] theorem cmdsOf_xQueueSend (i : List Nat) (t : List Ev) :
    cmdsOf (Ev.xQueueSend i :: t) = cmdsOf t := rfl

@[simp] theorem cmdsOf_call (f : List Nat) (t : List Ev) :
    cmdsOf (Ev.call f :: t) = cmdsOf t := rfl

@[simp] theorem cmdsOf_append (s t : List Ev) : cmdsOf (s ++ t) = cmdsOf s ++ cmdsOf t := by
  induction s with
  | nil => rfl
  | cons e s ih => cases e <;> simp [cmdsOf, ih]

@[simp] theorem cmdsOf_ifdefDebug (dbg : Bool) (msgs : List (List Nat)) :
    cmdsOf (ifdefDebug dbg msgs) = [] := by
  unfold ifdefDebug
  split
  · induction msgs with
    | nil => rfl
    | cons m ms ih => simpa [cmdsOf] using ih
  · rfl

@[simp] theorem cmdsOf_replicate_call (n : Nat) (f : List Nat) :
    cmdsOf (List.replicate n (Ev.call f)) = [] := by
  induction n with
  | zero => rfl
  | succ n ih => simpa [List.replicate_succ] using ih

theorem cmdsOf_flatMap_one (c : Cmd) (f : Nat → List Ev) (h : ∀ i, cmdsOf (f i) = [c])
    (l : List Nat) : cmdsOf (l.flatMap f) = List.replicate l.length c := by
  induction l with
  | nil => rfl
  | cons a l ih => simp [List.flatMap_cons, h, ih, List.replicate_succ]

theorem cmdsOf_pingLoop (env : BootEnv) :
    cmdsOf (pingLoop env) = List.replicate 8 Cmd.gsm_ping_modem := by
  unfold pingLoop
  rw [cmdsOf_flatMap_one Cmd.gsm_ping_modem]
  · simp
  · intro i
    by_cases hp : env.ping i = true <;> simp [hp]

/-! ## Facts about the access point search -/

/-- The search returns the access point of the first operator, from index `i`
on, that occurs in the operator name. -/
theorem findApn_first (name setapn : List Nat) (k i j : Nat)
    (hij : i ≤ j) (hjk : j < i + k)
    (hj : (strstr name (oprList.getD j [])).isSome = true)
    (hlt : ∀ l, i ≤ l → l < j → (strstr name (oprList.getD l [])).isSome = false) :
    findApn name setapn k i = apnList.getD j [] := by
  induction k generalizing i with
  | zero => omega
  | succ k ih =>
    unfold findApn
    by_cases hi : i = j
    · subst hi
      rw [if_pos hj]
    · have h1 : (strstr name (oprList.getD i [])).isSome = false := hlt i (le_refl i) (by omega)
      rw [h1]
      exact ih (i + 1) (by omega) (by omega) (fun l hl hl2 => hlt l (by omega) hl2)

/-- The search leaves `setapn` alone when no operator occurs in the name. -/
theorem findApn_none (name setapn : List Nat) (k i : Nat)
    (h : ∀ l, i ≤ l → l < i + k → (strstr name (oprList.getD l [])).isSome = false) :
    findApn name setapn k i = setapn := by
  induction k generalizing i with
  | zero => rfl
  | succ k ih =>
    unfold findApn
    rw [h i (le_refl i) (by omega)]
    exact ih (i + 1) (fun l hl hl2 => h l (by omega) (by omega))

theorem checkApn_setapn (dbg : Bool) (env : BootEnv) (modem : Modem) :
    (checkApn dbg env modem).1.setapn = modem.setapn := by
  unfold checkApn
  split
  · split <;> rfl
  · rfl

theorem systemBoot_setapn (dbg : Bool) (env : BootEnv) (modem : Modem) :
    (systemBoot dbg env modem).1.setapn =
      findApn (strtolower env.operator_name) modem.setapn APN_OPR_LIST_LEN 0 := by
  simp only [systemBoot, checkApn_setapn]

theorem cmdsOf_checkApn (dbg : Bool) (env : BootEnv) (modem : Modem) :
    cmdsOf (checkApn dbg env modem).2 =
      if modem.setapn <:+: modem.getapn then []
      else Cmd.gsm_set_accesspoint :: (if env.setOk then [Cmd.gsm_get_accesspoint] else []) := by
  unfold checkApn
  by_cases h : modem.setapn <:+: modem.getapn
  · have h1 : ¬ (strstr modem.getapn modem.setapn).isNone = true := by
      rw [strstr_isNone_iff]; exact not_not.mpr h
    rw [if_neg h1, if_pos h]
    simp
  · have h1 : (strstr modem.getapn modem.setapn).isNone = true := by
      rw [strstr_isNone_iff]; exact h
    rw [if_pos h1, if_neg h]
    by_cases hs : env.setOk = true <;> simp [hs]

theorem cmdsOf_systemBoot (dbg : Bool) (env : BootEnv) (modem : Modem) :
    cmdsOf (systemBoot dbg env modem).2 =
      List.replicate 8 Cmd.gsm_ping_modem ++
        [Cmd.gsm_get_operator_name, Cmd.gsm_get_accesspoint] ++
        (if (systemBoot dbg env modem).1.setapn <:+: env.getapn then []
         else Cmd.gsm_set_accesspoint ::
           (if env.setOk then [Cmd.gsm_get_accesspoint] else [])) := by
  simp only [systemBoot, checkApn_setapn, cmdsOf_append, cmdsOf_replicate_call, cmdsOf_pingLoop,
    cmdsOf_ifdefDebug, cmdsOf_checkApn, cmdsOf_modem, cmdsOf_call, cmdsOf_nil, List.append_nil,
    List.nil_append, List.append_assoc, List.singleton_append, List.cons_append]

/-! ## Facts about `connectGPRS` -/

theorem strstr_isSome_eq_decide (h n : List Nat) :
    (strstr h n).isSome = decide (n <:+: h) := by
  by_cases hn : n <:+: h
  · simp [hn, (strstr_isSome_iff h n).mpr hn]
  · have : ¬ (strstr h n).isSome = true := fun hs => hn ((strstr_isSome_iff h n).mp hs)
    simp [hn, this]

theorem cmdsOf_readIpAddress (dbg : Bool) (env : GprsEnv) (modem : Modem) :
    cmdsOf (readIpAddress dbg env modem).2 = [Cmd.gsm_get_ip_address] := by
  unfold readIpAddress
  by_cases h : env.ipOk = true <;> simp [h]

/-- The modem calls of one pass after the poll, along the `if`/`else if`
chain of the source. -/
theorem cmdsAfterPoll_pass_chain (dbg : Bool) (env : GprsEnv) (modem : Modem) :
    cmdsAfterPoll (connectGPRS_pass dbg env modem).2 =
      if decide (cstr "ip start" <:+: strtolower env.tcpstatus) ||
          decide (cstr "ip initial" <:+: strtolower env.tcpstatus) then
        Cmd.gsm_start_gprs :: (if env.startOk then [Cmd.gsm_get_ip_address] else [])
      else if decide (cstr "ip config" <:+: strtolower env.tcpstatus) then []
      else if decide (cstr "ip gprsact" <:+: strtolower env.tcpstatus) ||
          decide (cstr "ip status" <:+: strtolower env.tcpstatus) then [Cmd.gsm_get_ip_address]
      else if decide (cstr "tcp connecting" <:+: strtolower env.tcpstatus) then []
      else if decide (cstr "connect ok" <:+: strtolower env.tcpstatus) then
        Cmd.gsm_tcp_disconnect :: (if env.disconnectOk then [Cmd.gsm_get_ip_address] else [])
      else if decide (cstr "tcp closing" <:+: strtolower env.tcpstatus) then
        [Cmd.gsm_get_ip_address]
      else if decide (cstr "tcp closed" <:+: strtolower env.tcpstatus) then
        [Cmd.gsm_get_ip_address]
      else if decide (cstr "pdp deact" <:+: strtolower env.tcpstatus) then []
      else [Cmd.gsm_get_ip_address] := by
  unfold connectGPRS_pass cmdsAfterPoll
  simp only [strstr_isSome_eq_decide]
  split_ifs <;>
    simp [cmdsOf_readIpAddress]

/-- The modem calls of one pass after the poll are the action of the first
class, in the order of the tests, that the status text belongs to. -/
theorem cmdsAfterPoll_pass_find (dbg : Bool) (env : GprsEnv) (modem : Modem) :
    cmdsAfterPoll (connectGPRS_pass dbg env modem).2 =
      match classOrder.find? (fun c => c.hasText env.tcpstatus) with
      | some c => c.actionWith env
      | none => [Cmd.gsm_get_ip_address] := by
  rw [cmdsAfterPoll_pass_chain]
  simp only [classOrder, List.find?, StatusClass.hasText, StatusClass.patterns, List.any,
    Bool.or_false]
  generalize decide (cstr "ip start" <:+: strtolower env.tcpstatus) = b1
  generalize decide (cstr "ip initial" <:+: strtolower env.tcpstatus) = b2
  generalize decide (cstr "ip config" <:+: strtolower env.tcpstatus) = b3
  generalize decide (cstr "ip gprsact" <:+: strtolower env.tcpstatus) = b4
  generalize decide (cstr "ip status" <:+: strtolower env.tcpstatus) = b5
  generalize decide (cstr "tcp connecting" <:+: strtolower env.tcpstatus) = b6
  generalize decide (cstr "connect ok" <:+: strtolower env.tcpstatus) = b7
  generalize decide (cstr "tcp closing" <:+: strtolower env.tcpstatus) = b8
  generalize decide (cstr "tcp closed" <:+: strtolower env.tcpstatus) = b9
  generalize decide (cstr "pdp deact" <:+: strtolower env.tcpstatus) = b10
  cases b1 <;> cases b2 <;> simp [StatusClass.actionWith, StatusClass.action]
  cases b3 <;> simp [StatusClass.actionWith, StatusClass.action]
  cases b4 <;> cases b5 <;> simp [StatusClass.actionWith, StatusClass.action]
  cases b6 <;> simp [StatusClass.actionWith, StatusClass.action]
  cases b7 <;> simp [StatusClass.actionWith, StatusClass.action]
  cases b8 <;> simp [StatusClass.actionWith, StatusClass.action]
  cases b9 <;> simp [StatusClass.actionWith, StatusClass.action]
  cases b10 <;> simp [StatusClass.actionWith, StatusClass.action]

theorem cmdsAfterPoll_append (s t : List Ev) :
    cmdsAfterPoll (s ++ t) = cmdsAfterPoll s ++ cmdsAfterPoll t := by
  simp [cmdsAfterPoll]

theorem cmdsAfterPoll_connectGPRS_cons (dbg : Bool) (env : GprsEnv) (envs : List GprsEnv)
    (modem : Modem) :
    cmdsAfterPoll (connectGPRS dbg (env :: envs) modem).2 =
      cmdsAfterPoll (connectGPRS_pass dbg env modem).2 ++
        cmdsAfterPoll (connectGPRS dbg envs (connectGPRS_pass dbg env modem).1).2 := by
  simp [connectGPRS, cmdsAfterPoll_append]

/-- With every call succeeding, a status text of at most one class gets the
action the table lists for it. -/
theorem cmdsAfterPoll_pass_table (dbg : Bool) (env : GprsEnv) (modem : Modem)
    (hs : env.startOk = true) (hd : env.disconnectOk = true)
    (hone : (classesOf env.tcpstatus).length ≤ 1) :
    cmdsAfterPoll (connectGPRS_pass dbg env modem).2 = tableAction env.tcpstatus := by
  rw [cmdsAfterPoll_pass_find, ← List.filter_head?]
  unfold tableAction
  change (match (classesOf env.tcpstatus).head? with
    | some c => c.actionWith env
    | none => [Cmd.gsm_get_ip_address]) = _
  cases hc : classesOf env.tcpstatus with
  | nil => rfl
  | cons c l =>
    cases l with
    | nil => cases c <;> simp [StatusClass.actionWith, StatusClass.action, hs, hd]
    | cons d l => rw [hc] at hone; simp at hone

theorem connectGPRS_pass_deactivated_eq (dbg : Bool) (env : GprsEnv) (modem : Modem)
    (h : decide (cstr "pdp deact" <:+: strtolower env.tcpstatus) = true)
    (h1 : decide (cstr "ip start" <:+: strtolower env.tcpstatus) = false)
    (h2 : decide (cstr "ip initial" <:+: strtolower env.tcpstatus) = false)
    (h3 : decide (cstr "ip config" <:+: strtolower env.tcpstatus) = false)
    (h4 : decide (cstr "ip gprsact" <:+: strtolower env.tcpstatus) = false)
    (h5 : decide (cstr "ip status" <:+: strtolower env.tcpstatus) = false)
    (h6 : decide (cstr "tcp connecting" <:+: strtolower env.tcpstatus) = false)
    (h7 : decide (cstr "connect ok" <:+: strtolower env.tcpstatus) = false)
    (h8 : decide (cstr "tcp closing" <:+: strtolower env.tcpstatus) = false)
    (h9 : decide (cstr "tcp closed" <:+: strtolower env.tcpstatus) = false) :
    connectGPRS_pass dbg env modem =
      ({ modem with tcpstatus := strtolower env.tcpstatus },
        ifdefDebug dbg [cstr "reading tcp status from modem\r\n"] ++
          [Ev.modem Cmd.gsm_get_tcpstatus []] ++
          ifdefDebug dbg [cstr "reading tcp status completed\r\n", cstr "status: ",
            strtolower env.tcpstatus, cstr "\r\n"] ++
          ifdefDebug dbg [deactivatedReport] ++
          ifdefDebug dbg [cstr "gprs task completed, suspending now\r\n"] ++
          [Ev.call (cstr "vTaskSuspend")]) := by
  unfold connectGPRS_pass
  simp only [strstr_isSome_eq_decide, h, h1, h2, h3, h4, h5, h6, h7, h8, h9]
  rfl

theorem not_hasText (c : StatusClass) (text : List Nat) (h : c.hasText text = false) :
    ∀ p, p ∈ c.patterns → decide (p <:+: strtolower text) = false := by
  intro p hp
  unfold StatusClass.hasText at h
  rw [List.any_eq_false] at h
  simpa using h p hp

/-! ## Claims about `systemBoot` -/

/-- C1. For every operator name (in any letter case) whose lowercase form
contains at least one operator of the table, there is a first such operator in
declared order, and `modem.setapn` after `systemBoot` is the access point
paired with it; a name that contains exactly one operator of the table gets
the access point paired with that operator. -/
theorem systemBoot_resolves_first_match (dbg : Bool) (env : BootEnv) (modem : Modem)
    (h : ∃ i, i < APN_OPR_LIST_LEN ∧ oprList.getD i [] <:+: strtolower env.operator_name) :
    (∃ i, i < APN_OPR_LIST_LEN ∧ oprList.getD i [] <:+: strtolower env.operator_name ∧
      (∀ j, j < i → ¬ oprList.getD j [] <:+: strtolower env.operator_name) ∧
      (systemBoot dbg env modem).1.setapn = apnList.getD i []) ∧
    (∀ i, i < APN_OPR_LIST_LEN → oprList.getD i [] <:+: strtolower env.operator_name →
      (∀ j, j < APN_OPR_LIST_LEN → oprList.getD j [] <:+: strtolower env.operator_name → j = i) →
      (systemBoot dbg env modem).1.setapn = apnList.getD i []) := by
  classical
  have hlt0 : Nat.find h < APN_OPR_LIST_LEN := (Nat.find_spec h).1
  have hm0 : oprList.getD (Nat.find h) [] <:+: strtolower env.operator_name :=
    (Nat.find_spec h).2
  have hres : (systemBoot dbg env modem).1.setapn = apnList.getD (Nat.find h) [] := by
    rw [systemBoot_setapn]
    apply findApn_first
    · exact Nat.zero_le _
    · simpa using hlt0
    · exact (strstr_isSome_iff _ _).mpr hm0
    · intro l _ hl
      have hlt : l < APN_OPR_LIST_LEN := lt_trans hl hlt0
      have hn : ¬ oprList.getD l [] <:+: strtolower env.operator_name :=
        fun hm => Nat.find_min h hl ⟨hlt, hm⟩
      rw [← strstr_isSome_iff] at hn
      simpa using hn
  refine ⟨⟨Nat.find h, hlt0, hm0, ?_, hres⟩, ?_⟩
  · intro j hj hm
    exact Nat.find_min h hj ⟨lt_trans hj hlt0, hm⟩
  · intro i _ _ huniq
    rw [hres, huniq (Nat.find h) hlt0 hm0]

/-- The operator name "AIRTEL INDIA" resolves to "airtelgprs.com". -/
theorem systemBoot_resolves_first_match_witness :
    (∃ i, i < APN_OPR_LIST_LEN ∧ oprList.getD i [] <:+: strtolower (cstr "AIRTEL INDIA")) ∧
      (systemBoot true ⟨fun _ => true, cstr "AIRTEL INDIA", [], true, []⟩
        ⟨[], [], [], [], [], []⟩).1.setapn = cstr "airtelgprs.com" := by
  have h : ∃ i, i < APN_OPR_LIST_LEN ∧ oprList.getD i [] <:+: strtolower (cstr "AIRTEL INDIA") :=
    ⟨0, by decide, by decide⟩
  refine ⟨h, ?_⟩
  obtain ⟨i, _, _, hfirst, heq⟩ := (systemBoot_resolves_first_match true
    ⟨fun _ => true, cstr "AIRTEL INDIA", [], true, []⟩ ⟨[], [], [], [], [], []⟩ h).1
  have hi : i = 0 := by
    by_contra hne
    exact hfirst 0 (Nat.pos_of_ne_zero hne) (by decide)
  rw [heq, hi]
  decide

/-- C2, as stated, fails: "unknownnet" contains no operator of the table, and
with an empty `modem.setapn` before boot the field is still empty after it,
not "unresolved". -/
theorem systemBoot_unknownnet_not_unresolved :
    (∀ i, i < APN_OPR_LIST_LEN → ¬ oprList.getD i [] <:+: strtolower (cstr "unknownnet")) ∧
      (systemBoot true ⟨fun _ => true, cstr "unknownnet", [], true, []⟩
        ⟨[], [], [], [], [], []⟩).1.setapn = [] ∧
      (systemBoot true ⟨fun _ => true, cstr "unknownnet", [], true, []⟩
        ⟨[], [], [], [], [], []⟩).1.setapn ≠ cstr "unresolved" := by
  refine ⟨by decide, ?_, ?_⟩
  · rw [systemBoot_setapn]; decide
  · rw [systemBoot_setapn]; decide

/-- C2, amended.  For every operator name whose lowercase form contains none
of the operators of the table, `systemBoot` leaves `modem.setapn` as it was
before the search. -/
theorem systemBoot_no_match_keeps_setapn (dbg : Bool) (env : BootEnv) (modem : Modem)
    (h : ∀ i, i < APN_OPR_LIST_LEN → ¬ oprList.getD i [] <:+: strtolower env.operator_name) :
    (systemBoot dbg env modem).1.setapn = modem.setapn := by
  rw [systemBoot_setapn]
  apply findApn_none
  intro l _ hl
  have hn := h l (by simpa using hl)
  rw [← strstr_isSome_iff] at hn
  simpa using hn

/-- For "unknownnet" a `modem.setapn` holding "old" still holds "old". -/
theorem systemBoot_no_match_keeps_setapn_witness :
    (∀ i, i < APN_OPR_LIST_LEN → ¬ oprList.getD i [] <:+: strtolower (cstr "unknownnet")) ∧
      (systemBoot true ⟨fun _ => true, cstr "unknownnet", [], true, []⟩
        ⟨[], cstr "old", [], [], [], []⟩).1.setapn = cstr "old" :=
  ⟨by decide, systemBoot_no_match_keeps_setapn true
    ⟨fun _ => true, cstr "unknownnet", [], true, []⟩ ⟨[], cstr "old", [], [], [], []⟩ (by decide)⟩

/-- C8, as stated, fails twice.  For operator "vodafone" and the access point
"www.vodafone.net" read from the modem, the resolved access point "www"
differs from the one read, yet `gsm_set_accesspoint` is not called.  For
operator "vodafone", access point "internet" read from the modem and a failing
`gsm_set_accesspoint`, the set call is the last modem call: the access point is
not read again. -/
theorem systemBoot_set_accesspoint_not_iff_differ :
    ((systemBoot true ⟨fun _ => true, cstr "vodafone", cstr "www.vodafone.net", true, []⟩
        ⟨[], [], [], [], [], []⟩).1.setapn = cstr "www" ∧
      cstr "www" ≠ cstr "www.vodafone.net" ∧
      Cmd.gsm_set_accesspoint ∉
        cmdsOf (systemBoot true ⟨fun _ => true, cstr "vodafone", cstr "www.vodafone.net", true, []⟩
          ⟨[], [], [], [], [], []⟩).2) ∧
    cmdsOf (systemBoot true ⟨fun _ => true, cstr "vodafone", cstr "internet", false, []⟩
        ⟨[], [], [], [], [], []⟩).2 =
      List.replicate 8 Cmd.gsm_ping_modem ++
        [Cmd.gsm_get_operator_name, Cmd.gsm_get_accesspoint, Cmd.gsm_set_accesspoint] := by
  refine ⟨⟨?_, by decide, ?_⟩, ?_⟩
  · rw [systemBoot_setapn]; decide
  · rw [cmdsOf_systemBoot, systemBoot_setapn]; decide
  · rw [cmdsOf_systemBoot, systemBoot_setapn]; decide

/-- C8, amended.  `systemBoot` calls `gsm_set_accesspoint` if and only if the
resolved access point does not occur inside the access point read from the
modem (`strstr`), and its modem calls are, in order: eight pings, the operator
name read, the access point read, then, only in that case, the set call,
followed by a second access point read exactly when the set call succeeded. -/
theorem systemBoot_set_accesspoint_iff (dbg : Bool) (env : BootEnv) (modem : Modem) :
    (Cmd.gsm_set_accesspoint ∈ cmdsOf (systemBoot dbg env modem).2 ↔
      ¬ (systemBoot dbg env modem).1.setapn <:+: env.getapn) ∧
    cmdsOf (systemBoot dbg env modem).2 =
      List.replicate 8 Cmd.gsm_ping_modem ++
        [Cmd.gsm_get_operator_name, Cmd.gsm_get_accesspoint] ++
        (if (systemBoot dbg env modem).1.setapn <:+: env.getapn then []
         else Cmd.gsm_set_accesspoint ::
           (if env.setOk then [Cmd.gsm_get_accesspoint] else [])) := by
  refine ⟨?_, cmdsOf_systemBoot dbg env modem⟩
  rw [cmdsOf_systemBoot]
  by_cases h : (systemBoot dbg env modem).1.setapn <:+: env.getapn
  · simp [h, List.mem_replicate]
  · simp [h]

/-! ## Claims about `connectGPRS` -/

/-- C3. For every finite sequence of passes of `connectGPRS` in which every
modem call succeeds and every polled status text belongs to at most one class
(case-insensitive substring match), the modem calls made after the polls are
the concatenation, in order, of the actions the table lists for the texts:
start then address for "ip start"/"ip initial", nothing for "ip config",
address for "ip gprsact"/"ip status", nothing for "tcp connecting", disconnect
then address for "connect ok", address for "tcp closing", for "tcp closed" and
for a text of no class (and nothing for "pdp deact"). -/
theorem connectGPRS_commands (dbg : Bool) (envs : List GprsEnv) (modem : Modem)
    (hok : ∀ e ∈ envs, e.startOk = true ∧ e.disconnectOk = true ∧ e.ipOk = true)
    (hone : ∀ e ∈ envs, (classesOf e.tcpstatus).length ≤ 1) :
    cmdsAfterPoll (connectGPRS dbg envs modem).2 =
      envs.flatMap (fun e => tableAction e.tcpstatus) := by
  induction envs generalizing modem with
  | nil => rfl
  | cons e envs ih =>
    have he := hok e (List.mem_cons_self e envs)
    rw [cmdsAfterPoll_connectGPRS_cons, List.flatMap_cons,
      cmdsAfterPoll_pass_table dbg e modem he.1 he.2.1 (hone e (List.mem_cons_self e envs)),
      ih _ (fun x hx => hok x (List.mem_cons_of_mem e hx))
        (fun x hx => hone x (List.mem_cons_of_mem e hx))]

/-- For the statuses "ip initial", "ip status", "connect ok", "tcp closed" the
calls are start, address, address, disconnect, address, address. -/
theorem connectGPRS_commands_witness :
    (∀ e ∈ [GprsEnv.mk (cstr "ip initial") true true true (cstr "10.0.0.1"),
          GprsEnv.mk (cstr "ip status") true true true (cstr "10.0.0.1"),
          GprsEnv.mk (cstr "connect ok") true true true (cstr "10.0.0.1"),
          GprsEnv.mk (cstr "tcp closed") true true true (cstr "10.0.0.1")],
        e.startOk = true ∧ e.disconnectOk = true ∧ e.ipOk = true) ∧
      (∀ e ∈ [GprsEnv.mk (cstr "ip initial") true true true (cstr "10.0.0.1"),
          GprsEnv.mk (cstr "ip status") true true true (cstr "10.0.0.1"),
          GprsEnv.mk (cstr "connect ok") true true true (cstr "10.0.0.1"),
          GprsEnv.mk (cstr "tcp closed") true true true (cstr "10.0.0.1")],
        (classesOf e.tcpstatus).length ≤ 1) ∧
      cmdsAfterPoll (connectGPRS true
        [GprsEnv.mk (cstr "ip initial") true true true (cstr "10.0.0.1"),
          GprsEnv.mk (cstr "ip status") true true true (cstr "10.0.0.1"),
          GprsEnv.mk (cstr "connect ok") true true true (cstr "10.0.0.1"),
          GprsEnv.mk (cstr "tcp closed") true true true (cstr "10.0.0.1")]
        ⟨[], [], [], [], [], []⟩).2 =
        [Cmd.gsm_start_gprs, Cmd.gsm_get_ip_address, Cmd.gsm_get_ip_address,
          Cmd.gsm_tcp_disconnect, Cmd.gsm_get_ip_address, Cmd.gsm_get_ip_address] := by
  refine ⟨by decide, by decide, ?_⟩
  rw [connectGPRS_commands true _ _ (by decide) (by decide)]
  decide

/-- C4, as stated, fails: in a build without `__DEBUG_MESSAGES__` the status
"PDP DEACT" reaches the deactivated class and the pass writes no debug text at
all, so the deactivated-session report is not emitted. -/
theorem connectGPRS_deactivated_no_report :
    cstr "pdp deact" <:+: strtolower (cstr "PDP DEACT") ∧
      (∀ c, c ≠ StatusClass.sessionDeactivated → c.hasText (cstr "PDP DEACT") = false) ∧
      debugOf (connectGPRS_pass false ⟨cstr "PDP DEACT", true, true, true, []⟩
        ⟨[], [], [], [], [], []⟩).2 = [] ∧
      Ev.debug_out deactivatedReport ∉
        (connectGPRS_pass false ⟨cstr "PDP DEACT", true, true, true, []⟩
          ⟨[], [], [], [], [], []⟩).2 := by
  refine ⟨by decide, ?_, by decide, by decide⟩
  intro c hc
  cases c <;> first | exact absurd rfl hc | decide

/-- C4, amended.  For every polled status text whose lowercase form contains
"pdp deact" and no pattern of another class, the pass makes no modem call
after the poll, leaves `modem.ip_addr` unchanged, and its calls are exactly:
the poll, the deactivated-session report (once, between the status echo and
the closing message) when the build defines `__DEBUG_MESSAGES__`, and the
suspension; without `__DEBUG_MESSAGES__` no report is written. -/
theorem connectGPRS_deactivated (dbg : Bool) (env : GprsEnv) (modem : Modem)
    (hd : cstr "pdp deact" <:+: strtolower env.tcpstatus)
    (hreach : ∀ c, c ≠ StatusClass.sessionDeactivated → c.hasText env.tcpstatus = false) :
    cmdsAfterPoll (connectGPRS_pass dbg env modem).2 = [] ∧
      (connectGPRS_pass dbg env modem).1.ip_addr = modem.ip_addr ∧
      (connectGPRS_pass dbg env modem).2 =
        if dbg then
          [Ev.debug_out (cstr "reading tcp status from modem\r\n"),
            Ev.modem Cmd.gsm_get_tcpstatus [],
            Ev.debug_out (cstr "reading tcp status completed\r\n"),
            Ev.debug_out (cstr "status: "),
            Ev.debug_out (strtolower env.tcpstatus),
            Ev.debug_out (cstr "\r\n"),
            Ev.debug_out deactivatedReport,
            Ev.debug_out (cstr "gprs task completed, suspending now\r\n"),
            Ev.call (cstr "vTaskSuspend")]
        else [Ev.modem Cmd.gsm_get_tcpstatus [], Ev.call (cstr "vTaskSuspend")] := by
  have e := connectGPRS_pass_deactivated_eq dbg env modem (decide_eq_true hd)
    (not_hasText _ _ (hreach StatusClass.sessionStart (by decide)) _ (by simp [StatusClass.patterns]))
    (not_hasText _ _ (hreach StatusClass.sessionStart (by decide)) _ (by simp [StatusClass.patterns]))
    (not_hasText _ _ (hreach StatusClass.sessionConfiguring (by decide)) _
      (by simp [StatusClass.patterns]))
    (not_hasText _ _ (hreach StatusClass.sessionActive (by decide)) _
      (by simp [StatusClass.patterns]))
    (not_hasText _ _ (hreach StatusClass.sessionActive (by decide)) _
      (by simp [StatusClass.patterns]))
    (not_hasText _ _ (hreach StatusClass.connectionNegotiating (by decide)) _
      (by simp [StatusClass.patterns]))
    (not_hasText _ _ (hreach StatusClass.connectionEstablished (by decide)) _
      (by simp [StatusClass.patterns]))
    (not_hasText _ _ (hreach StatusClass.connectionClosing (by decide)) _
      (by simp [StatusClass.patterns]))
    (not_hasText _ _ (hreach StatusClass.connectionClosed (by decide)) _
      (by simp [StatusClass.patterns]))
  rw [e]
  refine ⟨?_, rfl, ?_⟩
  · simp [cmdsAfterPoll]
  · cases dbg <;> rfl

/-- With `__DEBUG_MESSAGES__`, the status "PDP DEACT" gives one report and
no modem call after the poll. -/
theorem connectGPRS_deactivated_witness :
    cstr "pdp deact" <:+: strtolower (cstr "PDP DEACT") ∧
      (∀ c, c ≠ StatusClass.sessionDeactivated → c.hasText (cstr "PDP DEACT") = false) ∧
      cmdsAfterPoll (connectGPRS_pass true ⟨cstr "PDP DEACT", true, true, true, cstr "10.0.0.1"⟩
        ⟨[], [], [], [], cstr "10.0.0.9", []⟩).2 = [] ∧
      (connectGPRS_pass true ⟨cstr "PDP DEACT", true, true, true, cstr "10.0.0.1"⟩
        ⟨[], [], [], [], cstr "10.0.0.9", []⟩).1.ip_addr = cstr "10.0.0.9" := by
  have hd : cstr "pdp deact" <:+: strtolower (cstr "PDP DEACT") := by decide
  have hreach : ∀ c, c ≠ StatusClass.sessionDeactivated →
      c.hasText (cstr "PDP DEACT") = false := by
    intro c hc
    cases c <;> first | exact absurd rfl hc | decide
  have h := connectGPRS_deactivated true ⟨cstr "PDP DEACT", true, true, true, cstr "10.0.0.1"⟩
    ⟨[], [], [], [], cstr "10.0.0.9", []⟩ hd hreach
  exact ⟨hd, hreach, h.1, h.2.1⟩

/-- C9, as stated, fails: for the status "CONNECT OK" and a failing
`gsm_tcp_disconnect`, the pass calls the disconnect and does not read the
address. -/
theorem connectGPRS_established_disconnect_fails :
    cstr "connect ok" <:+: strtolower (cstr "CONNECT OK") ∧
      (∀ c ∈ [StatusClass.sessionStart, StatusClass.sessionConfiguring,
          StatusClass.sessionActive, StatusClass.connectionNegotiating],
        c.hasText (cstr "CONNECT OK") = false) ∧
      cmdsAfterPoll (connectGPRS_pass true ⟨cstr "CONNECT OK", true, false, true, []⟩
        ⟨[], [], [], [], [], []⟩).2 = [Cmd.gsm_tcp_disconnect] := by
  refine ⟨by decide, by decide, by decide⟩

/-- C9, amended.  For every polled status text whose lowercase form contains
"connect ok" and no pattern of an earlier-tested class, the pass calls
`gsm_tcp_disconnect` and then, only when that call succeeded,
`gsm_get_ip_address`. -/
theorem connectGPRS_established (dbg : Bool) (env : GprsEnv) (modem : Modem)
    (hc : cstr "connect ok" <:+: strtolower env.tcpstatus)
    (hearly : ∀ c ∈ [StatusClass.sessionStart, StatusClass.sessionConfiguring,
        StatusClass.sessionActive, StatusClass.connectionNegotiating],
      c.hasText env.tcpstatus = false) :
    cmdsAfterPoll (connectGPRS_pass dbg env modem).2 =
      Cmd.gsm_tcp_disconnect ::
        (if env.disconnectOk then [Cmd.gsm_get_ip_address] else []) := by
  have h1 := not_hasText _ _ (hearly StatusClass.sessionStart (by simp))
  have h2 := not_hasText _ _ (hearly StatusClass.sessionConfiguring (by simp))
  have h3 := not_hasText _ _ (hearly StatusClass.sessionActive (by simp))
  have h4 := not_hasText _ _ (hearly StatusClass.connectionNegotiating (by simp))
  rw [cmdsAfterPoll_pass_chain,
    h1 (cstr "ip start") (by simp [StatusClass.patterns]),
    h1 (cstr "ip initial") (by simp [StatusClass.patterns]),
    h2 (cstr "ip config") (by simp [StatusClass.patterns]),
    h3 (cstr "ip gprsact") (by simp [StatusClass.patterns]),
    h3 (cstr "ip status") (by simp [StatusClass.patterns]),
    h4 (cstr "tcp connecting") (by simp [StatusClass.patterns]),
    decide_eq_true hc]
  rfl

/-- For "CONNECT OK": disconnect then address when the disconnect succeeds. -/
theorem connectGPRS_established_witness :
    cstr "connect ok" <:+: strtolower (cstr "CONNECT OK") ∧
      (∀ c ∈ [StatusClass.sessionStart, StatusClass.sessionConfiguring,
          StatusClass.sessionActive, StatusClass.connectionNegotiating],
        c.hasText (cstr "CONNECT OK") = false) ∧
      cmdsAfterPoll (connectGPRS_pass true ⟨cstr "CONNECT OK", true, true, true, []⟩
        ⟨[], [], [], [], [], []⟩).2 = [Cmd.gsm_tcp_disconnect, Cmd.gsm_get_ip_address] :=
  ⟨by decide, by decide,
    connectGPRS_established true ⟨cstr "CONNECT OK", true, true, true, []⟩
      ⟨[], [], [], [], [], []⟩ (by decide) (by decide)⟩

/-- C10. The status text is tested against the classes in the fixed order
(ip start | ip initial), ip config, (ip gprsact | ip status), tcp connecting,
connect ok, tcp closing, tcp closed, pdp deact, and the modem calls of a pass
after the poll are the action of the first class in that order the text
belongs to (the address read when it belongs to none), whatever later classes
it also belongs to; in particular every text containing "ip start" triggers
`gsm_start_gprs`, also when it contains "ip status" or "pdp deact". -/
theorem connectGPRS_priority (dbg : Bool) (env : GprsEnv) (modem : Modem) :
    (cmdsAfterPoll (connectGPRS_pass dbg env modem).2 =
      match classOrder.find? (fun c => c.hasText env.tcpstatus) with
      | some c => c.actionWith env
      | none => [Cmd.gsm_get_ip_address]) ∧
    (cstr "ip start" <:+: strtolower env.tcpstatus →
      cmdsAfterPoll (connectGPRS_pass dbg env modem).2 =
        Cmd.gsm_start_gprs :: (if env.startOk then [Cmd.gsm_get_ip_address] else [])) := by
  refine ⟨cmdsAfterPoll_pass_find dbg env modem, ?_⟩
  intro h
  rw [cmdsAfterPoll_pass_chain, decide_eq_true h]
  rfl

/-- A text with "ip status", "ip start" and "pdp deact" starts the session. -/
theorem connectGPRS_priority_witness :
    cstr "ip start" <:+: strtolower (cstr "IP STATUS, IP START, PDP DEACT") ∧
      cstr "ip status" <:+: strtolower (cstr "IP STATUS, IP START, PDP DEACT") ∧
      cstr "pdp deact" <:+: strtolower (cstr "IP STATUS, IP START, PDP DEACT") ∧
      cmdsAfterPoll (connectGPRS_pass true
        ⟨cstr "IP STATUS, IP START, PDP DEACT", true, true, true, []⟩
        ⟨[], [], [], [], [], []⟩).2 = [Cmd.gsm_start_gprs, Cmd.gsm_get_ip_address] :=
  ⟨by decide, by decide, by decide,
    (connectGPRS_priority true ⟨cstr "IP STATUS, IP START, PDP DEACT", true, true, true, []⟩
      ⟨[], [], [], [], [], []⟩).2 (by decide)⟩

/-! ## Facts about `scanCard` and `httpProc` -/

theorem store_eq (buf : List Nat) (off : Nat) (src : List Nat)
    (h : off + src.length ≤ buf.length) :
    store buf off src = some (buf.take off ++ src ++ buf.drop (off + src.length)) := by
  unfold store
  rw [if_pos h]

theorem store_one_take (c : List Nat) (i b : Nat) (h : i < c.length) :
    (c.take i ++ [b] ++ c.drop (i + 1)).take (i + 1) = c.take i ++ [b] := by
  have hl : (c.take i ++ [b]).length = i + 1 := by simp [List.length_take]; omega
  rw [List.take_append_of_le_length (by omega), List.take_of_length_le (by omega)]

theorem store_one_drop (c : List Nat) (i b k : Nat) (h : i < c.length) (hk : i < k) :
    (c.take i ++ [b] ++ c.drop (i + 1)).drop k = c.drop k := by
  have hl : (c.take i ++ [b]).length = i + 1 := by simp [List.length_take]; omega
  rw [List.drop_append_eq_append_drop, hl, List.drop_of_length_le (by omega), List.drop_drop]
  simp
  congr 1
  omega

theorem readFrame_spec (polls : List (Option Nat)) :
    ∀ (i : Nat) (card_no : List Nat), i ≤ 12 → card_no.length = 15 →
      (12 - i ≤ (bytesOf polls).length →
        ∃ rest, readFrame polls i card_no =
            some (12, card_no.take i ++ (bytesOf polls).take (12 - i) ++ card_no.drop 12, rest) ∧
          bytesOf rest = (bytesOf polls).drop (12 - i)) ∧
      ((bytesOf polls).length < 12 - i → readFrame polls i card_no = none) := by
  induction polls with
  | nil =>
    intro i c hi hc
    unfold readFrame
    by_cases h12 : i = 12
    · subst h12
      simp [bytesOf]
    · simp [bytesOf, h12]
      omega
  | cons p ps ih =>
    intro i c hi hc
    unfold readFrame
    by_cases h12 : i = 12
    · subst h12
      simp
    · rw [if_pos h12]
      cases p with
      | none =>
        simpa [bytesOf] using ih i c hi hc
      | some b =>
        have hb : bytesOf (some b :: ps) = b :: bytesOf ps := by simp [bytesOf]
        have hst : store c i [b] = some (c.take i ++ [b] ++ c.drop (i + 1)) :=
          store_eq c i [b] (by simp; omega)
        have hmod : (i + 1) % 256 = i + 1 := Nat.mod_eq_of_lt (by omega)
        have hsub : 12 - i = (12 - (i + 1)) + 1 := by omega
        simp only [hst, hmod, hb]
        have hlen : (c.take i ++ [b] ++ c.drop (i + 1)).length = 15 := by
          simp [List.length_take, List.length_drop]; omega
        obtain ⟨ih1, ih2⟩ := ih (i + 1) (c.take i ++ [b] ++ c.drop (i + 1)) (by omega) hlen
        rw [store_one_take c i b (by omega), store_one_drop c i b 12 (by omega) (by omega)] at ih1
        constructor
        · intro hle
          obtain ⟨rest, hr, hrest⟩ := ih1 (by simp at hle; omega)
          refine ⟨rest, ?_, ?_⟩
          · rw [hr, hsub, List.take_succ_cons]
            simp
          · rw [hrest, hsub, List.drop_succ_cons]
        · intro hlt
          exact ih2 (by simp at hlt; omega)

theorem store_length (buf : List Nat) (off : Nat) (src r : List Nat)
    (h : store buf off src = some r) : r.length = buf.length := by
  unfold store at h
  split at h
  · injection h with h
    subst h
    simp [List.length_take, List.length_drop]
    omega
  · exact absurd h (by simp)

theorem store_append (pre rest src : List Nat) (h : src.length ≤ rest.length) :
    store (pre ++ rest) pre.length src = some (pre ++ src ++ rest.drop src.length) := by
  rw [store_eq _ _ _ (by simp; omega), List.take_left', List.drop_append]
  rfl

/-- One completed pass of `scanCard` on polls that deliver the frame `f`. -/
theorem scanCard_pass_frame (polls : List (Option Nat)) (s : ScanState) (f more : List Nat)
    (hf : f.length = 12) (hp : bytesOf polls = f ++ more)
    (hi : s.i = 0) (hc : s.card_no.length = 15) (hr : s.rfid.length = 15) :
    ∃ s1 rest, scanCard_pass polls s =
        some (s1, [Ev.call (cstr "uart0_flushrx"), Ev.xQueueSend ((f.drop 4).take 6)], rest) ∧
      bytesOf rest = more ∧ s1.i = 0 ∧ s1.card_no.length = 15 ∧ s1.rfid.length = 15 := by
  obtain ⟨h1, _⟩ := readFrame_spec polls 0 s.card_no (by omega) hc
  obtain ⟨rest, hrf, hrest⟩ := h1 (by rw [hp]; simp; omega)
  have htake : (f ++ more).take 12 = f := by
    rw [← hf]; exact List.take_left'  rfl
  have hdrop : (f ++ more).drop 12 = more := by
    rw [← hf]; exact List.drop_left' rfl
  rw [hp, htake] at hrf
  rw [hp, hdrop] at hrest
  simp only [Nat.sub_zero, List.take_zero, List.nil_append] at hrf
  have hsrc : ((f ++ s.card_no.drop 12).drop 4).take 6 = (f.drop 4).take 6 := by
    rw [List.drop_append_of_le_length (by omega), List.take_append_of_le_length (by simp; omega)]
  have hmem : memcpy s.rfid 0 ((f ++ s.card_no.drop 12).drop 4) 6 =
      some ((f.drop 4).take 6 ++ s.rfid.drop 6) := by
    unfold memcpy
    rw [if_pos (by simp; omega), hsrc]
    have := store_append [] s.rfid ((f.drop 4).take 6) (by simp; omega)
    simp only [List.nil_append, List.length_nil] at this
    rw [this]
    have hl : ((f.drop 4).take 6).length = 6 := by
      rw [List.length_take, List.length_drop]; omega
    rw [hl]
  refine ⟨⟨0, f ++ s.card_no.drop 12, (f.drop 4).take 6 ++ s.rfid.drop 6⟩, rest, ?_, hrest, rfl, ?_, ?_⟩
  · unfold scanCard_pass
    rw [hi, hrf]
    simp only [hmem]
    congr 4
    rw [List.take_left']
    simp [List.length_take, List.length_drop]; omega
  · simp [List.length_drop]; omega
  · simp [List.length_take, List.length_drop]; omega

/-- A pass of `scanCard` does not complete on fewer than twelve bytes. -/
theorem scanCard_pass_waiting (polls : List (Option Nat)) (s : ScanState)
    (hp : (bytesOf polls).length < 12) (hi : s.i = 0) (hc : s.card_no.length = 15) :
    scanCard_pass polls s = none := by
  obtain ⟨_, h2⟩ := readFrame_spec polls 0 s.card_no (by omega) hc
  unfold scanCard_pass
  rw [hi, h2 (by omega)]

theorem scanCard_frames (frames : List (List Nat)) :
    ∀ (polls : List (Option Nat)) (n : Nat) (s : ScanState),
      (∀ f ∈ frames, f.length = 12) → bytesOf polls = frames.flatten → frames.length ≤ n →
      s.i = 0 → s.card_no.length = 15 → s.rfid.length = 15 →
      scanCard n polls s = frames.flatMap fun f =>
        [Ev.call (cstr "uart0_flushrx"), Ev.xQueueSend ((f.drop 4).take 6)] := by
  induction frames with
  | nil =>
    intro polls n s _ hp _ hi hc _
    cases n with
    | zero => rfl
    | succ n =>
      unfold scanCard
      rw [scanCard_pass_waiting polls s (by rw [hp]; simp) hi hc]
      rfl
  | cons f fs ih =>
    intro polls n s hf hp hn hi hc hr
    cases n with
    | zero => simp at hn
    | succ n =>
      obtain ⟨s1, rest, hpass, hrest, hi1, hc1, hr1⟩ :=
        scanCard_pass_frame polls s f fs.flatten (hf f (List.mem_cons_self f fs))
          (by rw [hp, List.flatten_cons]) hi hc hr
      unfold scanCard
      rw [hpass]
      simp only [List.flatMap_cons]
      rw [ih rest n s1 (fun g hg => hf g (List.mem_cons_of_mem f hg)) hrest
        (by simpa using hn) hi1 hc1 hr1]

theorem stringAt_ne_zero (mem : List Nat) : ∀ b ∈ stringAt mem, b ≠ 0 := by
  intro b hb
  have := List.mem_takeWhile_imp hb
  simpa using this

theorem stringAt_append_zero (l r : List Nat) (h : ∀ b ∈ l, b ≠ 0) :
    stringAt (l ++ 0 :: r) = l := by
  induction l with
  | nil => simp [stringAt]
  | cons a l ih =>
    have ha : a ≠ 0 := h a (List.mem_cons_self a l)
    have := ih (fun b hb => h b (List.mem_cons_of_mem a hb))
    unfold stringAt at this ⊢
    rw [List.cons_append, List.takeWhile_cons, this]
    simp [ha]

theorem strlen_eq (mem : List Nat) : strlen mem = (stringAt mem).length := rfl

/-- What the three statements that build the path leave in the buffer. -/
theorem buildPath_eq (BASE path rfid : List Nat) (hpath : path.length = 32)
    (hrfid : 6 ≤ rfid.length) (hfit : strlen BASE + 7 ≤ 32) :
    buildPath BASE path rfid =
      some (stringAt BASE ++ rfid.take 6 ++ 0 :: path.drop (strlen BASE + 7)) := by
  have hL : (stringAt BASE).length = strlen BASE := rfl
  have h1 : strcpy path BASE = some (stringAt BASE ++ 0 :: path.drop (strlen BASE + 1)) := by
    unfold strcpy
    have := store_append [] path (stringAt BASE ++ [0]) (by simp; omega)
    simp only [List.nil_append, List.length_nil] at this
    rw [this]
    simp [hL]
  have h2 : strlen (stringAt BASE ++ 0 :: path.drop (strlen BASE + 1)) = strlen BASE := by
    rw [strlen_eq, stringAt_append_zero _ _ (stringAt_ne_zero BASE)]
    rfl
  have h3 : memcpy (stringAt BASE ++ 0 :: path.drop (strlen BASE + 1)) (strlen BASE) rfid 6 =
      some (stringAt BASE ++ rfid.take 6 ++ path.drop (strlen BASE + 6)) := by
    unfold memcpy
    rw [if_pos hrfid]
    have := store_append (stringAt BASE) (0 :: path.drop (strlen BASE + 1)) (rfid.take 6)
      (by simp [List.length_take, List.length_drop]; omega)
    rw [hL] at this
    rw [this]
    have hl : (rfid.take 6).length = 6 := by rw [List.length_take]; omega
    rw [hl]
    simp [List.drop_drop]
  have h4 : store (stringAt BASE ++ rfid.take 6 ++ path.drop (strlen BASE + 6))
      (strlen BASE + 6) [0] =
      some (stringAt BASE ++ rfid.take 6 ++ 0 :: path.drop (strlen BASE + 7)) := by
    have hl : (stringAt BASE ++ rfid.take 6).length = strlen BASE + 6 := by
      rw [List.length_append, List.length_take, hL]; omega
    have := store_append (stringAt BASE ++ rfid.take 6) (path.drop (strlen BASE + 6)) [0]
      (by simp [List.length_drop]; omega)
    rw [hl] at this
    rw [this]
    simp [List.drop_drop]
  unfold buildPath
  rw [h1]
  simp only [h2, h3, h4]

theorem cmdsOf_lockedDebug (taken : Bool) (msg : List Nat) :
    cmdsOf (lockedDebug taken msg) = [] := by
  unfold lockedDebug
  cases taken <;> rfl

theorem httpGetPaths_lockedDebug (taken : Bool) (msg : List Nat) :
    httpGetPaths (lockedDebug taken msg) = [] := by
  unfold lockedDebug
  cases taken <;> rfl

/-- One pass of `httpProc` on a card event `id` of six bytes: the result,
with the buffer given to `gsm_http_get`. -/
theorem httpProc_pass_event (URL BASE : List Nat) (env : HttpEnv) (s : HttpState) (id : List Nat)
    (hrecv : env.received = some id) (hid : id.length = 6)
    (hrfid : s.rfid.length = 10) (hpath : s.path.length = 32) (hfit : strlen BASE + 7 ≤ 32) :
    ∃ s1 t, httpProc_pass URL BASE true env s = some (s1, t) ∧
      s1.rfid.length = 10 ∧ s1.path.length = 32 ∧
      s1.path = stringAt BASE ++ id ++ 0 :: s.path.drop (strlen BASE + 7) ∧
      httpGetPaths t = [s1.path] ∧
      cmdsOf t = exchangeCmds env ∧
      ∀ b, httpProc_pass URL BASE true { env with disconnectOk := b } s = some (s1, t) := by
  have hst : store s.rfid 0 id = some (id ++ s.rfid.drop 6) := by
    have := store_append [] s.rfid id (by omega)
    simp only [List.nil_append, List.length_nil] at this
    rw [this, hid]
  have htk : (id ++ s.rfid.drop 6).take 6 = id := by
    rw [← hid]; exact List.take_left' rfl
  have hbp := buildPath_eq BASE s.path (id ++ s.rfid.drop 6) hpath
    (by simp [List.length_drop]; omega) hfit
  rw [htk] at hbp
  have hplen : (stringAt BASE ++ id ++ 0 :: s.path.drop (strlen BASE + 7)).length = 32 := by
    have hL : (stringAt BASE).length = strlen BASE := rfl
    simp [List.length_drop, hL]
    omega
  have hrlen : (id ++ s.rfid.drop 6).length = 10 := by
    simp [List.length_drop]; omega
  unfold httpProc_pass
  simp only [hrecv, hst, hbp, if_true]
  by_cases hg : env.getOk = true
  · simp only [hg, if_true, ite_self]
    refine ⟨_, _, rfl, hrlen, hplen, rfl, ?_, ?_, ?_⟩
    · cases env.semaGet <;> cases env.semaDisconnect <;> rfl
    · simp [exchangeCmds, hrecv, hg, cmdsOf_lockedDebug]
    · intro b
      rfl
  · simp only [hg]
    refine ⟨_, _, rfl, hrlen, hplen, rfl, ?_, ?_, ?_⟩
    · cases env.semaGet <;> rfl
    · simp [exchangeCmds, hrecv, hg, cmdsOf_lockedDebug]
    · intro b
      rfl

theorem strlen_append_zero_le (l r : List Nat) : strlen (l ++ 0 :: r) ≤ l.length := by
  induction l with
  | nil => simp [strlen]
  | cons a l ih =>
    unfold strlen at ih ⊢
    rw [List.cons_append, List.takeWhile_cons]
    split
    · simpa using ih
    · simp

/-- One pass of `httpProc`, with or without a card event. -/
theorem httpProc_pass_cmds (URL BASE : List Nat) (env : HttpEnv) (s : HttpState)
    (hitem : ∀ id, env.received = some id → id.length = 6)
    (hrfid : s.rfid.length = 10) (hpath : s.path.length = 32) (hfit : strlen BASE + 7 ≤ 32) :
    ∃ s1 t, httpProc_pass URL BASE true env s = some (s1, t) ∧
      s1.rfid.length = 10 ∧ s1.path.length = 32 ∧
      cmdsOf t = exchangeCmds env ∧
      ∀ b, httpProc_pass URL BASE true { env with disconnectOk := b } s = some (s1, t) := by
  rcases Option.eq_none_or_eq_some env.received with hrecv | ⟨id, hrecv⟩
  · refine ⟨s, [Ev.call (cstr "xQueueReceive"), Ev.modem Cmd.modem_flush_rx []], ?_, hrfid, hpath,
      ?_, ?_⟩
    · unfold httpProc_pass
      simp only [hrecv, if_true]
    · simp [exchangeCmds, hrecv]
    · intro b
      unfold httpProc_pass
      simp only [hrecv, if_true]
  · obtain ⟨s1, t, h1, h2, h3, _, _, h6, h7⟩ :=
      httpProc_pass_event URL BASE env s id hrecv (hitem id hrecv) hrfid hpath hfit
    exact ⟨s1, t, h1, h2, h3, h6, h7⟩

theorem httpProc_cmds (URL BASE : List Nat) (envs : List HttpEnv) :
    ∀ s : HttpState, (∀ e ∈ envs, ∀ id, e.received = some id → id.length = 6) →
      s.rfid.length = 10 → s.path.length = 32 → strlen BASE + 7 ≤ 32 →
      ∃ s1 t, httpProc URL BASE true envs s = some (s1, t) ∧
        cmdsOf t = envs.flatMap exchangeCmds ∧
        ∀ b, httpProc URL BASE true (envs.map fun e => { e with disconnectOk := b }) s =
          some (s1, t) := by
  induction envs with
  | nil =>
    intro s _ _ _ _
    exact ⟨s, [], rfl, rfl, fun _ => rfl⟩
  | cons e envs ih =>
    intro s hitem hrfid hpath hfit
    obtain ⟨s1, t, hp, hr1, hp1, hc, hb⟩ :=
      httpProc_pass_cmds URL BASE e s (hitem e (List.mem_cons_self e envs)) hrfid hpath hfit
    obtain ⟨s2, t2, hq, hc2, hb2⟩ :=
      ih s1 (fun x hx => hitem x (List.mem_cons_of_mem e hx)) hr1 hp1 hfit
    refine ⟨s2, t ++ t2, ?_, ?_, ?_⟩
    · unfold httpProc
      rw [hp]
      simp only [hq]
    · rw [cmdsOf_append, hc, hc2, List.flatMap_cons]
    · intro b
      rw [List.map_cons]
      unfold httpProc
      rw [hb b]
      simp only [hb2 b]

/-! ## Claims about `scanCard` -/

/-- C5. For every sequence of 12-byte frames received from the reader (with
any number of empty polls between the bytes) and every content of the local
buffers, each frame `f` makes `scanCard` send exactly the six bytes `f[4..9]`
to the queue, whatever `f[0..3]` and `f[10..11]` are, and the byte counter is
reset so that the next twelve bytes received form the next frame. -/
theorem scanCard_publishes_identifier (frames : List (List Nat)) (polls : List (Option Nat))
    (n : Nat) (s : ScanState)
    (hf : ∀ f ∈ frames, f.length = 12) (hp : bytesOf polls = frames.flatten)
    (hn : frames.length ≤ n)
    (hi : s.i = 0) (hc : s.card_no.length = 15) (hr : s.rfid.length = 15) :
    scanCard n polls s = frames.flatMap fun f =>
      [Ev.call (cstr "uart0_flushrx"), Ev.xQueueSend ((f.drop 4).take 6)] :=
  scanCard_frames frames polls n s hf hp hn hi hc hr

/-- The frames "XXXXABCDEF12" and "0000UVWXYZ99" give the card events
"ABCDEF" and "UVWXYZ". -/
theorem scanCard_publishes_identifier_witness :
    (∀ f ∈ [cstr "XXXXABCDEF12", cstr "0000UVWXYZ99"], f.length = 12) ∧
      bytesOf (none :: (cstr "XXXXABCDEF12").map some ++ [none, none] ++
          (cstr "0000UVWXYZ99").map some) =
        [cstr "XXXXABCDEF12", cstr "0000UVWXYZ99"].flatten ∧
      scanCard 2 (none :: (cstr "XXXXABCDEF12").map some ++ [none, none] ++
          (cstr "0000UVWXYZ99").map some) ⟨0, List.replicate 15 0, List.replicate 15 0⟩ =
        [Ev.call (cstr "uart0_flushrx"), Ev.xQueueSend (cstr "ABCDEF"),
          Ev.call (cstr "uart0_flushrx"), Ev.xQueueSend (cstr "UVWXYZ")] := by
  refine ⟨by decide, by decide, ?_⟩
  rw [scanCard_publishes_identifier [cstr "XXXXABCDEF12", cstr "0000UVWXYZ99"] _ 2
    ⟨0, List.replicate 15 0, List.replicate 15 0⟩ (by decide) (by decide) (by decide) rfl
    (by decide) (by decide)]
  decide

/-! ## Claims about `httpProc` -/

/-- C6, as stated, fails: with `BASE` "/card/" and the card identifier
41 00 43 44 45 46 (a NUL as second byte) the string `gsm_http_get` is given
ends at that NUL, so its length is 7 and not `strlen(BASE) + 6 = 12`. -/
theorem httpProc_path_identifier_with_nul :
    (httpProc_pass (cstr "host") (cstr "/card/") true
        ⟨some [65, 0, 67, 68, 69, 70], true, true, [], true, true⟩
        ⟨List.replicate 10 0, List.replicate 32 0, ⟨[], [], [], [], [], []⟩⟩).map
      (fun r => (httpGetPaths r.2).map strlen) = some [7] ∧
    strlen (cstr "/card/") + 6 = 12 := by
  constructor <;> decide

/-- C6, amended.  For every 6-byte card identifier `id` received from the
queue and every previous content of the buffers, provided
`strlen(BASE) + 7 ≤ 32`, the buffer given to `gsm_http_get` holds `BASE`, then
the six bytes of `id`, then a NUL, in its first `strlen(BASE) + 6 + 1` bytes
(the bytes after them are those the buffer held before); the string length of
the path is at most `strlen(BASE) + 6`, and is `strlen(BASE) + 6`, the path
being `BASE` followed by `id`, when `id` contains no NUL byte. -/
theorem httpProc_path (URL BASE : List Nat) (env : HttpEnv) (s : HttpState) (id : List Nat)
    (hrecv : env.received = some id) (hid : id.length = 6)
    (hrfid : s.rfid.length = 10) (hpath : s.path.length = 32) (hfit : strlen BASE + 7 ≤ 32) :
    ∃ s1 t p, httpProc_pass URL BASE true env s = some (s1, t) ∧ httpGetPaths t = [p] ∧
      p = stringAt BASE ++ id ++ 0 :: s.path.drop (strlen BASE + 7) ∧
      p.take (strlen BASE + 7) = stringAt BASE ++ id ++ [0] ∧
      strlen p ≤ strlen BASE + 6 ∧
      (0 ∉ id → stringAt p = stringAt BASE ++ id ∧ strlen p = strlen BASE + 6) := by
  obtain ⟨s1, t, h1, _, _, h4, h5, _, _⟩ :=
    httpProc_pass_event URL BASE env s id hrecv hid hrfid hpath hfit
  have hL : (stringAt BASE ++ id).length = strlen BASE + 6 := by
    rw [List.length_append, hid]; rfl
  refine ⟨s1, t, s1.path, h1, h5, h4, ?_, ?_, ?_⟩
  · rw [h4]
    have : stringAt BASE ++ id ++ 0 :: s.path.drop (strlen BASE + 7) =
        (stringAt BASE ++ id ++ [0]) ++ s.path.drop (strlen BASE + 7) := by simp
    rw [this]
    exact List.take_left' (by rw [List.length_append, hL]; rfl)
  · rw [h4, ← hL]
    exact strlen_append_zero_le _ _
  · intro h0
    have hne : ∀ b ∈ stringAt BASE ++ id, b ≠ 0 := by
      intro b hb
      rcases List.mem_append.mp hb with hb | hb
      · exact stringAt_ne_zero BASE b hb
      · intro hz
        exact h0 (hz ▸ hb)
    have hs : stringAt s1.path = stringAt BASE ++ id := by
      rw [h4]; exact stringAt_append_zero _ _ hne
    exact ⟨hs, by rw [strlen_eq, hs, hL]⟩

/-- With `BASE` "/card/" and a buffer full of old bytes, the card "ABCDEF"
gives the path "/card/ABCDEF". -/
theorem httpProc_path_witness :
    (cstr "ABCDEF").length = 6 ∧ strlen (cstr "/card/") + 7 ≤ 32 ∧
      ∃ s1 t p, httpProc_pass (cstr "host") (cstr "/card/") true
          ⟨some (cstr "ABCDEF"), true, true, [], true, true⟩
          ⟨List.replicate 10 255, List.replicate 32 255, ⟨[], [], [], [], [], []⟩⟩ =
            some (s1, t) ∧
        httpGetPaths t = [p] ∧ stringAt p = cstr "/card/ABCDEF" ∧ strlen p = 12 := by
  refine ⟨by decide, by decide, ?_⟩
  obtain ⟨s1, t, p, h1, h2, _, _, _, h6⟩ := httpProc_path (cstr "host") (cstr "/card/")
    ⟨some (cstr "ABCDEF"), true, true, [], true, true⟩
    ⟨List.replicate 10 255, List.replicate 32 255, ⟨[], [], [], [], [], []⟩⟩ (cstr "ABCDEF")
    rfl (by decide) (by decide) (by decide) (by decide)
  obtain ⟨h7, h8⟩ := h6 (by decide)
  exact ⟨s1, t, p, h1, h2, by rw [h7]; decide, by rw [h8]; decide⟩

/-- C7. For every sequence of passes of `httpProc` (each with a 6-byte card
event or a receive timeout) and every outcome of the calls, the modem calls
are, pass after pass: for a card event exactly one `gsm_http_get`, followed
by `http_read_data` and exactly one `gsm_tcp_disconnect` when the GET
succeeded and by nothing when it failed (a timeout gives one
`modem_flush_rx`); every pass completes, so the events after a failed
exchange are processed, and the outcome of the disconnect changes neither the
calls nor the data. -/
theorem httpProc_exchanges (URL BASE : List Nat) (envs : List HttpEnv) (s : HttpState)
    (hitem : ∀ e ∈ envs, ∀ id, e.received = some id → id.length = 6)
    (hrfid : s.rfid.length = 10) (hpath : s.path.length = 32) (hfit : strlen BASE + 7 ≤ 32) :
    ∃ s1 t, httpProc URL BASE true envs s = some (s1, t) ∧
      cmdsOf t = envs.flatMap exchangeCmds ∧
      ∀ b, httpProc URL BASE true (envs.map fun e => { e with disconnectOk := b }) s =
        some (s1, t) :=
  httpProc_cmds URL BASE envs s hitem hrfid hpath hfit

/-- A failed exchange, then a successful one whose disconnect fails, then a
third card: one GET; GET, read, disconnect; GET, read, disconnect. -/
theorem httpProc_exchanges_witness :
    (∀ e ∈ [HttpEnv.mk (some (cstr "ABCDEF")) false true [] true true,
          HttpEnv.mk (some (cstr "123456")) true true (cstr "ok") false true,
          HttpEnv.mk (some (cstr "UVWXYZ")) true false (cstr "ok") true false],
        ∀ id, e.received = some id → id.length = 6) ∧
      strlen (cstr "/card/") + 7 ≤ 32 ∧
      ∃ s1 t, httpProc (cstr "host") (cstr "/card/") true
          [HttpEnv.mk (some (cstr "ABCDEF")) false true [] true true,
            HttpEnv.mk (some (cstr "123456")) true true (cstr "ok") false true,
            HttpEnv.mk (some (cstr "UVWXYZ")) true false (cstr "ok") true false]
          ⟨List.replicate 10 0, List.replicate 32 0, ⟨[], [], [], [], [], []⟩⟩ = some (s1, t) ∧
        cmdsOf t = [Cmd.gsm_http_get,
          Cmd.gsm_http_get, Cmd.http_read_data, Cmd.gsm_tcp_disconnect,
          Cmd.gsm_http_get, Cmd.http_read_data, Cmd.gsm_tcp_disconnect] := by
  have hitem : ∀ e ∈ [HttpEnv.mk (some (cstr "ABCDEF")) false true [] true true,
      HttpEnv.mk (some (cstr "123456")) true true (cstr "ok") false true,
      HttpEnv.mk (some (cstr "UVWXYZ")) true false (cstr "ok") true false],
      ∀ id, e.received = some id → id.length = 6 := by
    intro e he id hid
    simp only [List.mem_cons, List.mem_singleton, List.not_mem_nil, or_false] at he
    rcases he with rfl | rfl | rfl <;>
      · injection hid with hid
        subst hid
        decide
  refine ⟨hitem, by decide, ?_⟩
  obtain ⟨s1, t, h1, h2, _⟩ := httpProc_exchanges (cstr "host") (cstr "/card/") _
    ⟨List.replicate 10 0, List.replicate 32 0, ⟨[], [], [], [], [], []⟩⟩ hitem
    (by decide) (by decide) (by decide)
  exact ⟨s1, t, h1, by rw [h2]; rfl⟩

end Terminal
